import Mathlib

/-!
Verification development for the DCR_Modular data-standardization pipeline.

The pipeline (src/llm_backend.py, src/data_processor.py,
src/column_analysis_page.py) cleans string values, asks an LLM for
original=canonical mappings per column, parses and stores the responses,
refines them from user feedback, and clusters columns from an LLM JSON
response.  Below, each Python function used by the claims is translated into
an executable Lean definition over `List Char`/`String`.  External
collaborators are modelled as parameters:

* the LLM (`llm.predict` / `llm.invoke`) is a function
  `String → Except String String` (normal return or raised exception), with
  `Option` for the `llm is None` case;
* `json.loads` used only as a validator inside `process_llm_response` is a
  parameter `json_loads_ok : String → Bool`;
* `json.loads` used by the clustering parser is modelled by the `LoadResult`
  of the already-loaded JSON value (a `JValue`), since the claims only
  concern what happens after loading succeeds or fails.

Python dicts (insertion ordered) are modelled as association lists, and
Python set iteration (whose order is unspecified) is modelled by
first-occurrence order; no theorem below depends on that order.
-/

/-- Python `str.strip()` whitespace test, restricted to the ASCII whitespace
characters that can actually occur in this pipeline's data. -/
def isPySpace (c : Char) : Bool :=
  c == ' ' || c == '\t' || c == '\n' || c == '\r' || c == '\x0b' || c == '\x0c'

/-- Remove leading whitespace, as the left half of Python `str.strip()`. -/
def stripLeft (l : List Char) : List Char :=
  l.dropWhile isPySpace

/-- Remove trailing whitespace, as the right half of Python `str.strip()`. -/
def stripRight (l : List Char) : List Char :=
  (l.reverse.dropWhile isPySpace).reverse

/-- Python `str.strip()` on a character list. -/
def pyStrip (l : List Char) : List Char :=
  stripRight (stripLeft l)

/-- Python `str.strip()` on a `String`. -/
def pyStripStr (s : String) : String :=
  String.mk (pyStrip s.data)

/-- The JSON escape characters recognized by the regex in
`clean_brand_name` (llm_backend.py line 192): one of `\\ / " b f n r t u`. -/
def validEscapeChar (c : Char) : Bool :=
  c == '\\' || c == '/' || c == '"' || c == 'b' || c == 'f' ||
  c == 'n' || c == 'r' || c == 't' || c == 'u'

/-- Python `re.sub(r'\\(?![\\/"bfnrtu])', r'\\\\', s)` (llm_backend.py
line 192): scanning left to right, a backslash NOT followed by a valid
escape character (or at the end of the string) is a match of length one and
is replaced by two backslashes; a backslash followed by a valid escape
character is not a match, and scanning resumes at the next character. -/
def subInvalidEscapes : List Char → List Char
  | [] => []
  | c :: rest =>
    if c = '\\' then
      match rest with
      | [] => ['\\', '\\']
      | d :: _ =>
        if validEscapeChar d then '\\' :: subInvalidEscapes rest
        else '\\' :: '\\' :: subInvalidEscapes rest
    else c :: subInvalidEscapes rest

/-- Python `re.sub(r'\s+', ' ', s)` (llm_backend.py line 195): every maximal
run of whitespace is replaced by a single space.  The boolean flag records
whether the previously scanned character was part of a whitespace run. -/
def collapseAux : Bool → List Char → List Char
  | _, [] => []
  | true, c :: rest =>
    if isPySpace c then collapseAux true rest
    else c :: collapseAux false rest
  | false, c :: rest =>
    if isPySpace c then ' ' :: collapseAux true rest
    else c :: collapseAux false rest

/-- Whitespace collapsing of `clean_brand_name`: `re.sub(r'\s+', ' ', s)`. -/
def collapseWs (l : List Char) : List Char :=
  collapseAux false l

/-- llm_backend.py `clean_brand_name` on its string domain: double every
backslash not followed by a recognized escape character, collapse whitespace
runs to single spaces, and trim.  (The Python function passes non-string
input through unchanged; only strings are modelled.) -/
def clean_brand_name (s : String) : String :=
  String.mk (pyStrip (collapseWs (subInvalidEscapes s.data)))

/-- Python `s.split('\n')`: always returns at least one (possibly empty)
piece; a trailing newline yields a trailing empty piece. -/
def splitLines : List Char → List (List Char)
  | [] => [[]]
  | c :: rest =>
    if c = '\n' then [] :: splitLines rest
    else
      match splitLines rest with
      | [] => [[c]]
      | h :: t => (c :: h) :: t

/-- Python `line.split('=', 1)`: `none` when the line has no `=`, otherwise
the pieces before and after the first `=`. -/
def splitFirstEq : List Char → Option (List Char × List Char)
  | [] => none
  | c :: rest =>
    if c = '=' then some ([], rest)
    else
      match splitFirstEq rest with
      | none => none
      | some (a, b) => some (c :: a, b)

/-- One iteration of the line loop in `process_llm_response` (llm_backend.py
lines 77-87): strip the line, require an `=`, split on the first `=`, strip
both sides, and keep the pair only when both sides are nonempty. -/
def parseLine (line : List Char) : Option (List Char × List Char) :=
  match splitFirstEq (pyStrip line) with
  | none => none
  | some (a, b) =>
    let original := pyStrip a
    let canonical := pyStrip b
    if original.isEmpty || canonical.isEmpty then none
    else some (original, canonical)

/-- The pair-extraction loop of `process_llm_response` (llm_backend.py lines
71-87): strip the whole output, split into lines, and collect the surviving
(original, canonical) pairs in line order. -/
def extract_mappings (output : String) : List (String × String) :=
  ((splitLines (pyStrip output.data)).filterMap parseLine).map
    (fun p => (String.mk p.1, String.mk p.2))

/-- Modelled from the claim C4's words (spec section 4.2): split the text
into lines, split each line on the first `=` only with both sides trimmed,
silently skip any line lacking `=` or with an empty side, and return the
surviving pairs in line order.  Identical to `extract_mappings` except that
the source additionally strips the whole response text first. -/
def parse_mapping_spec (text : String) : List (String × String) :=
  ((splitLines text.data).filterMap parseLine).map
    (fun p => (String.mk p.1, String.mk p.2))

/-- The error string returned by `process_llm_response` when nothing can be
parsed (llm_backend.py line 105). -/
def could_not_parse_msg (column_id : String) : String :=
  "Error: Could not parse response for " ++ column_id ++
  ". Expected format: original_name=canonical_name"

/-- Python `re.search(r'\[.*\]', s, re.DOTALL | re.MULTILINE)` (llm_backend.py
line 96): with a greedy dot matching newlines, this matches from the first
`[` to the last `]`, provided that `]` occurs after the first `[`. -/
def bracketMatch (s : List Char) : Option (List Char) :=
  match s.findIdx? (fun c => c = '[') with
  | none => none
  | some i =>
    match s.reverse.findIdx? (fun c => c = ']') with
    | none => none
    | some jr =>
      let j := s.length - 1 - jr
      if i < j then some ((s.drop i).take (j - i + 1)) else none

/-- llm_backend.py `process_llm_response` (lines 67-109): strip the output;
if at least one `original=canonical` pair parses, return the stripped output
unchanged; otherwise look for a JSON array substring and return it when
`json.loads` accepts it; otherwise return a fixed error message naming the
column.  `json_loads_ok` models the `json.loads` validation, which is the
only use made of the JSON library here. -/
def process_llm_response (json_loads_ok : String → Bool)
    (output : String) (column_id : String) : String :=
  let cleaned := pyStripStr output
  let mappings := (splitLines cleaned.data).filterMap parseLine
  if mappings.isEmpty then
    match bracketMatch cleaned.data with
    | some m => if json_loads_ok (String.mk m) then String.mk m
                else could_not_parse_msg column_id
    | none => could_not_parse_msg column_id
  else cleaned

/-- llm_backend.py `call_llm` (lines 32-38): when the llm object is missing
return a fixed error string; otherwise call `llm.predict(prompt).strip()`,
and turn any raised exception into the string `"Error calling LLM: ..."`.
Note that this function never raises: every failure becomes a return
value. -/
def call_llm (llm : Option (String → Except String String))
    (prompt : String) : String :=
  match llm with
  | none => "Error: LLM not initialized"
  | some predict =>
    match predict prompt with
    | Except.ok response => pyStripStr response
    | Except.error e => "Error calling LLM: " ++ e

/-- llm_backend.py `call_llm_parallel` (lines 41-65): call `llm.invoke` and
return the column id together with either the response content or the text
of the raised exception.  The Python `(column_id, result, error)` triple
with exactly one of `result`/`error` set is an `Except`; the token-usage
printing has no effect on the returned value. -/
def call_llm_parallel (invoke : String → Except String String)
    (prompt : String) (column_id : String) : String × Except String String :=
  match invoke prompt with
  | Except.ok response => (column_id, Except.ok response)
  | Except.error e => (column_id, Except.error e)

/-- data_processor.py `generate_mappings_for_all_columns`, result-collection
loop (lines 249-286), over an already-built task list of
`(column_id, prompt)` pairs (the task construction from the dataframes,
lines 187-247, only determines which tasks exist).  When the llm object is
missing the function returns the empty map (lines 182-184).  Each completed
task writes its own key: an error stores the marker `"Error: ..."`, a
success stores `process_llm_response` of the output.  Completion order only
permutes insertions of distinct keys in the Python dict, so the map is
modelled in task order. -/
def generate_mappings_for_all_columns (json_loads_ok : String → Bool)
    (llm : Option (String → Except String String))
    (tasks : List (String × String)) : List (String × String) :=
  match llm with
  | none => []
  | some invoke =>
    tasks.map (fun task =>
      match call_llm_parallel invoke task.2 task.1 with
      | (column_id, Except.error e) => (column_id, "Error: " ++ e)
      | (column_id, Except.ok output) =>
        (column_id, process_llm_response json_loads_ok output column_id))

/-- Python `json.dumps(feedback_list, indent=2)` for the list of
`{"Brand Name": ..., "Classified As": ...}` dicts built by the UI
(json.dumps string escaping is not modelled; this value is only ever
embedded into the refinement prompt text). -/
def json_dumps_feedback : List (String × String) → String
  | [] => "[]"
  | entries =>
    "[\n" ++
    String.intercalate ",\n" (entries.map (fun e =>
      "  \x7b\n    \"Brand Name\": \"" ++ e.1 ++
      "\",\n    \"Classified As\": \"" ++ e.2 ++ "\"\n  \x7d")) ++
    "\n]"

/-- llm_backend.py `initial_prompt_template` (lines 112-146). -/
def initial_prompt_template (data_values : List String) : String :=
  let n := toString data_values.length
  let brand_names_text :=
    String.intercalate " " (data_values.map (fun name => "\"" ++ name ++ "\""))
  "You are an expert in cleaning and deduplicating product brand names in retail data.\n\n" ++
  "Below is a list of " ++ n ++ " brand names extracted from different data sources. These names may vary due to typos, prefixes/suffixes (e.g., \"U-\", \"C-\", version numbers), formatting inconsistencies, or minor descriptive additions.\n\n" ++
  "Your task is to:\n" ++
  "1. Identify brand names that likely refer to the same brand.\n" ++
  "2. Group such similar names together under a shared \x27canonical\x27 brand name.\n" ++
  "3. The canonical name must be selected from the provided variants — ideally the most commonly used or recognizable form.\n\n" ++
  "CRITICAL REQUIREMENTS:\n" ++
  "- You MUST return exactly " ++ n ++ " mappings (one for each input value).\n" ++
  "- Every input brand name must appear exactly once in the output.\n" ++
  "- Every provided brand name must be included under some group (even if standalone).\n" ++
  "- Do not add extra mappings or skip any input values.\n" ++
  "- Do not invent new brand names not in the original brand name list.\n" ++
  "- Use format: original_name=canonical_name\n" ++
  "- One mapping per line\n" ++
  "- No extra text, quotes, or formatting\n" ++
  "- Every provided brand name must be included under some group (even if standalone).\n\n\n" ++
  "Brand names: " ++ brand_names_text ++ "\n\n" ++
  "Return the output strictly in the following format:\n\n" ++
  "**Output format**:\n" ++
  "GATORADE 5V5=GATORADE\n" ++
  "PEPSI MAX=PEPSI\n" ++
  "COCA COLA ZERO=COCA COLA\n\n"

/-- llm_backend.py `refinement_prompt_template` (lines 148-177). -/
def refinement_prompt_template (prev_classification : String)
    (feedback : String) : String :=
  "\nYou previously classified brand names as follows:\n" ++
  prev_classification ++ "\n\n" ++
  "A human reviewer has suggested the following refinements:\n" ++
  feedback ++ "\n\n" ++
  "Your task is to:\n" ++
  "- Apply the human feedback carefully to improve classification.\n" ++
  "- Update the brand name mappings based on the human feedback provided.\n" ++
  "- you may also apply the same change (or a consistent pattern) to other brand names that are: Lexically similar or \n" ++
  "  Follow a similar naming pattern\n" ++
  "- Ensure all brand names are still classified under a canonical name from the list.\n\n" ++
  "CRITICAL REQUIREMENTS:\n" ++
  "- You MUST return exactly the same number of mappings as the previous classification.\n" ++
  "- Every input brand name must appear exactly once in the output.\n" ++
  "- Use format: original_name=canonical_name\n" ++
  "- One mapping per line\n" ++
  "- No extra text or formatting\n" ++
  "- Do not add extra mappings or skip any input values.\n" ++
  "- Do not invent new brand names not in the original list.\n\n" ++
  "Return the output strictly in the following format:\n\n" ++
  "**Output format**:\n" ++
  "GATORADE 5V5=GATORADE\n" ++
  "PEPSI MAX=PEPSI\n" ++
  "COCA COLA ZERO=COCA COLA"

/-- data_processor.py `process_feedback_for_all_columns` (lines 288-315):
for each column of the mapping table, when the feedback table has a
nonempty entry for that column id, refine via the LLM and store the parsed
response; otherwise pass the mapping through unchanged.  The Python
`try/except` around the refinement call (lines 304-310) is not modelled
because `call_llm` and `process_llm_response` catch every exception
internally and return error strings, so the `except` branch is
unreachable. -/
def process_feedback_for_all_columns (json_loads_ok : String → Bool)
    (llm : Option (String → Except String String))
    (all_column_mappings : List (String × String))
    (all_column_feedback : List (String × List (String × String))) :
    List (String × String) :=
  all_column_mappings.map (fun cm =>
    let column_id := cm.1
    let mapping_output := cm.2
    let feedback_list := (all_column_feedback.lookup column_id).getD []
    if feedback_list.isEmpty then (column_id, mapping_output)
    else
      let feedback_json := json_dumps_feedback feedback_list
      let refinement_prompt := refinement_prompt_template mapping_output feedback_json
      let refined_response := call_llm llm refinement_prompt
      (column_id, process_llm_response json_loads_ok refined_response column_id))

/-- A JSON value as returned by Python `json.loads`. -/
inductive JValue where
  | null : JValue
  | bool (b : Bool) : JValue
  | num (n : Int) : JValue
  | str (s : String) : JValue
  | arr (items : List JValue) : JValue
  | obj (fields : List (String × JValue)) : JValue

/-- Python `isinstance(v, list)`. -/
def JValue.isArr : JValue → Bool
  | .arr _ => true
  | _ => false

/-- Python `v == name` for a string `name` (a JSON value equals a Python
string only when it is that string). -/
def JValue.eqStr (name : String) : JValue → Bool
  | .str s => s == name
  | _ => false

/-- Python `v in actual_column_names` for a JSON value `v`. -/
def JValue.inNames (names : List String) : JValue → Bool
  | .str s => names.contains s
  | _ => false

/-- The loop building `all_columns_in_response` (column_analysis_page.py
lines 269-272): concatenate the elements of those top-level entries that
are lists, skipping non-list entries. -/
def respColumns : List JValue → List JValue
  | [] => []
  | JValue.arr xs :: rest => xs ++ respColumns rest
  | _ :: rest => respColumns rest

/-- Enumeration of a Python set built from a list, keeping first
occurrences.  Python set iteration order is unspecified; no theorem below
depends on the order chosen here. -/
def dedupKeepFirst : List String → List String
  | [] => []
  | c :: rest => c :: (dedupKeepFirst rest).filter (fun d => d ≠ c)

/-- The validation and repair steps of `parse_llm_clustering_response`
(column_analysis_page.py lines 268-295), applied to a successfully loaded
top-level JSON list: append each eligible column missing from every group
as its own singleton group, then, when any hallucinated entry exists,
filter every list group down to known eligible names (non-list entries are
left untouched).  Faithful for responses whose group elements are JSON
scalars; deeper nesting makes the Python `set()` calls raise and is outside
the modelled domain. -/
def validateClusters (clusters : List JValue)
    (actual_column_names : List String) : List JValue :=
  let all_columns_in_response := respColumns clusters
  let missing_columns := (dedupKeepFirst actual_column_names).filter
    (fun c => ! all_columns_in_response.any (JValue.eqStr c))
  let clusters2 := clusters ++ missing_columns.map
    (fun c => JValue.arr [JValue.str c])
  let extra_columns := all_columns_in_response.filter
    (fun v => ! v.inNames actual_column_names)
  if extra_columns.isEmpty then clusters2
  else clusters2.map (fun cl =>
    match cl with
    | JValue.arr xs =>
      JValue.arr (xs.filter (fun v => v.inNames actual_column_names))
    | other => other)

/-- Outcome of the text processing and `json.loads` call at the top of
`parse_llm_clustering_response` (column_analysis_page.py lines 250-261):
either the loaded JSON value, or the `json.JSONDecodeError` failure. -/
inductive LoadResult where
  | failure : LoadResult
  | success (v : JValue) : LoadResult

/-- column_analysis_page.py `parse_llm_clustering_response` (lines 248-305)
after the `json.loads` stage: a decode failure falls back to one singleton
group per eligible column (lines 301-305); a loaded value that is not a
list returns the empty group list (lines 264-266); a loaded list goes
through validation and repair. -/
def parse_llm_clustering_response (loaded : LoadResult)
    (column_names : List String) : List JValue :=
  match loaded with
  | .failure => column_names.map (fun c => JValue.arr [JValue.str c])
  | .success v =>
    match v with
    | JValue.arr clusters => validateClusters clusters column_names
    | _ => []

/-- Helper for stating claims about well-formed clustering responses: the
JSON value of a nested list of strings. -/
def mkNestedList (gs : List (List String)) : JValue :=
  JValue.arr (gs.map (fun g => JValue.arr (g.map JValue.str)))

/-- Normal-form predicate: the first character, if any, is not whitespace. -/
def headNotSp : List Char → Bool
  | [] => true
  | c :: _ => ! isPySpace c

/-- Normal-form predicate: no two adjacent whitespace characters. -/
def noTwoSp : List Char → Bool
  | [] => true
  | [_] => true
  | a :: b :: rest => (!(isPySpace a && isPySpace b)) && noTwoSp (b :: rest)

/-- Abbreviation used by the lemmas below: the surviving pairs of the line
loop, on a raw character list (no outer strip). -/
def pairsOfL (l : List Char) : List (List Char × List Char) :=
  (splitLines l).filterMap parseLine

/-- Append one character to the last piece of a nonempty list of pieces
(used to describe `splitLines` of `l ++ [c]` for a non-newline `c`). -/
def appendToLast (c : Char) : List (List Char) → List (List Char)
  | [] => [[c]]
  | [h] => [h ++ [c]]
  | h :: t => h :: appendToLast c t

/-! Lemmas about `clean_brand_name` (claim C2). -/

theorem subInvalidEscapes_eq_self (l : List Char) (h : '\\' ∉ l) :
    subInvalidEscapes l = l := by
  induction l with
  | nil => rfl
  | cons c rest ih =>
    have hc : ¬ c = '\\' := fun e => h (e ▸ List.mem_cons_self c rest)
    have hr : '\\' ∉ rest := fun m => h (List.mem_cons_of_mem _ m)
    simp [subInvalidEscapes, hc, ih hr]

theorem mem_collapseAux {c : Char} :
    ∀ (b : Bool) (l : List Char), c ∈ collapseAux b l → c = ' ' ∨ c ∈ l := by
  intro b l
  induction l generalizing b with
  | nil => intro h; cases b <;> simp [collapseAux] at h
  | cons d rest ih =>
    intro h
    by_cases hd : isPySpace d
    · cases b with
      | true =>
        simp only [collapseAux, hd, if_true] at h
        rcases ih true h with h1 | h1
        · exact Or.inl h1
        · exact Or.inr (List.mem_cons_of_mem _ h1)
      | false =>
        simp only [collapseAux, hd, if_true] at h
        rcases List.mem_cons.mp h with h1 | h1
        · exact Or.inl h1
        · rcases ih true h1 with h2 | h2
          · exact Or.inl h2
          · exact Or.inr (List.mem_cons_of_mem _ h2)
    · have hstep : c ∈ d :: collapseAux false rest := by
        cases b <;> simpa [collapseAux, hd] using h
      rcases List.mem_cons.mp hstep with h1 | h1
      · exact Or.inr (h1 ▸ List.mem_cons_self d rest)
      · rcases ih false h1 with h2 | h2
        · exact Or.inl h2
        · exact Or.inr (List.mem_cons_of_mem _ h2)

theorem mem_pyStrip {c : Char} {l : List Char} (h : c ∈ pyStrip l) : c ∈ l := by
  have h1 : c ∈ stripLeft l := by
    have := List.dropWhile_subset (p := isPySpace) (l := (stripLeft l).reverse)
    have h2 : c ∈ (stripLeft l).reverse := by
      have := this (by simpa [stripRight, pyStrip] using List.mem_reverse.mpr h)
      exact this
    exact List.mem_reverse.mp h2
  exact List.dropWhile_subset _ h1

theorem collapse_allSp {c : Char} :
    ∀ (b : Bool) (l : List Char), c ∈ collapseAux b l → isPySpace c = true → c = ' ' := by
  intro b l
  induction l generalizing b with
  | nil => intro h; cases b <;> simp [collapseAux] at h
  | cons d rest ih =>
    intro h hc
    by_cases hd : isPySpace d
    · cases b with
      | true =>
        simp only [collapseAux, hd, if_true] at h
        exact ih true h hc
      | false =>
        simp only [collapseAux, hd, if_true] at h
        rcases List.mem_cons.mp h with h1 | h1
        · exact h1
        · exact ih true h1 hc
    · have hstep : c ∈ d :: collapseAux false rest := by
        cases b <;> simpa [collapseAux, hd] using h
      rcases List.mem_cons.mp hstep with h1 | h1
      · subst h1; exact absurd hc (by simpa using hd)
      · exact ih false h1 hc

theorem noTwoSp_cons (a : Char) (l : List Char) :
    noTwoSp (a :: l) = ((!isPySpace a || headNotSp l) && noTwoSp l) := by
  cases l with
  | nil => simp [noTwoSp, headNotSp]
  | cons b r => simp [noTwoSp, headNotSp, Bool.not_and]

theorem collapse_norm (l : List Char) :
    (headNotSp (collapseAux true l) = true ∧ noTwoSp (collapseAux true l) = true)
    ∧ noTwoSp (collapseAux false l) = true := by
  induction l with
  | nil => exact ⟨⟨rfl, rfl⟩, rfl⟩
  | cons c rest ih =>
    by_cases hc : isPySpace c
    · refine ⟨⟨?_, ?_⟩, ?_⟩
      · simpa [collapseAux, hc] using ih.1.1
      · simpa [collapseAux, hc] using ih.1.2
      · simp only [collapseAux, hc, if_true]
        rw [noTwoSp_cons]
        simp [ih.1.1, ih.1.2]
    · have hstepT : collapseAux true (c :: rest) = c :: collapseAux false rest := by
        simp [collapseAux, hc]
      have hstepF : collapseAux false (c :: rest) = c :: collapseAux false rest := by
        simp [collapseAux, hc]
      refine ⟨⟨?_, ?_⟩, ?_⟩
      · simp [hstepT, headNotSp, hc]
      · rw [hstepT, noTwoSp_cons]
        simp [ih.2, hc]
      · rw [hstepF, noTwoSp_cons]
        simp [ih.2, hc]

theorem collapse_eq_self :
    ∀ (l : List Char), (∀ c ∈ l, isPySpace c = true → c = ' ') → noTwoSp l = true →
    collapseAux false l = l ∧ (headNotSp l = true → collapseAux true l = l) := by
  intro l
  induction l with
  | nil => intro _ _; exact ⟨rfl, fun _ => rfl⟩
  | cons c rest ih =>
    intro hsp h2
    have h2' := h2
    rw [noTwoSp_cons, Bool.and_eq_true] at h2'
    have ht : noTwoSp rest = true := h2'.2
    have hor : (!isPySpace c || headNotSp rest) = true := h2'.1
    have hsp' : ∀ d ∈ rest, isPySpace d = true → d = ' ' :=
      fun d hd => hsp d (List.mem_cons_of_mem _ hd)
    by_cases hc : isPySpace c
    · have hcsp : c = ' ' := hsp c (List.mem_cons_self _ _) hc
      have hhr : headNotSp rest = true := by
        rw [Bool.or_eq_true] at hor
        rcases hor with h | h
        · exact absurd hc (by simpa using h)
        · exact h
      constructor
      · simp only [collapseAux, hc, if_true]
        rw [(ih hsp' ht).2 hhr, hcsp]
      · intro hh
        exact absurd hh (by simp [headNotSp, hc])
    · have hstepT : collapseAux true (c :: rest) = c :: collapseAux false rest := by
        simp [collapseAux, hc]
      have hstepF : collapseAux false (c :: rest) = c :: collapseAux false rest := by
        simp [collapseAux, hc]
      constructor
      · rw [hstepF, (ih hsp' ht).1]
      · intro _
        rw [hstepT, (ih hsp' ht).1]

theorem headNotSp_dropWhile (l : List Char) :
    headNotSp (l.dropWhile isPySpace) = true := by
  induction l with
  | nil => rfl
  | cons c rest ih =>
    by_cases hc : isPySpace c
    · simpa [List.dropWhile_cons, hc] using ih
    · simp [List.dropWhile_cons, hc, headNotSp]

theorem stripLeft_eq_self (l : List Char) (h : headNotSp l = true) :
    stripLeft l = l := by
  cases l with
  | nil => rfl
  | cons c rest =>
    have hc : ¬ isPySpace c = true := by simpa [headNotSp] using h
    simp [stripLeft, List.dropWhile_cons, hc]

theorem stripRight_eq_self (l : List Char) (h : headNotSp l.reverse = true) :
    stripRight l = l := by
  unfold stripRight
  have : l.reverse.dropWhile isPySpace = l.reverse := by
    have := stripLeft_eq_self l.reverse h
    simpa [stripLeft] using this
  rw [this, List.reverse_reverse]

theorem stripRight_decomp (l : List Char) :
    stripRight l ++ (l.reverse.takeWhile isPySpace).reverse = l := by
  conv_rhs => rw [← l.reverse_reverse,
    ← List.takeWhile_append_dropWhile (p := isPySpace) (l := l.reverse)]
  rw [List.reverse_append]
  rfl

theorem headNotSp_stripRight (l : List Char) (h : headNotSp l = true) :
    headNotSp (stripRight l) = true := by
  cases hsr : stripRight l with
  | nil => rfl
  | cons c r =>
    have hd := stripRight_decomp l
    rw [hsr] at hd
    rw [← hd] at h
    simpa [headNotSp] using h

theorem noTwoSp_tail (a : Char) (l : List Char) (h : noTwoSp (a :: l) = true) :
    noTwoSp l = true := by
  rw [noTwoSp_cons, Bool.and_eq_true] at h
  exact h.2

theorem noTwoSp_dropWhile (l : List Char) (h : noTwoSp l = true) :
    noTwoSp (l.dropWhile isPySpace) = true := by
  induction l with
  | nil => exact h
  | cons c rest ih =>
    by_cases hc : isPySpace c
    · simpa [List.dropWhile_cons, hc] using ih (noTwoSp_tail _ _ h)
    · simpa [List.dropWhile_cons, hc] using h

theorem noTwoSp_append_left (l m : List Char) (h : noTwoSp (l ++ m) = true) :
    noTwoSp l = true := by
  induction l with
  | nil => rfl
  | cons a l' ih =>
    rw [List.cons_append, noTwoSp_cons, Bool.and_eq_true] at h
    have h1 := h.1
    have h2 := ih h.2
    rw [noTwoSp_cons, Bool.and_eq_true]
    refine ⟨?_, h2⟩
    cases l' with
    | nil => simp [headNotSp]
    | cons b r =>
      simpa [headNotSp] using h1

theorem noTwoSp_stripRight (l : List Char) (h : noTwoSp l = true) :
    noTwoSp (stripRight l) = true := by
  have hd := stripRight_decomp l
  exact noTwoSp_append_left _ _ (by rw [hd]; exact h)

theorem headNotSp_reverse_stripRight (l : List Char) :
    headNotSp (stripRight l).reverse = true := by
  unfold stripRight
  rw [List.reverse_reverse]
  exact headNotSp_dropWhile _

/-- Claim C2, counterexample: `clean_brand_name` is not idempotent.  On the
one-character string consisting of a single backslash, the first pass
doubles it, and the second pass doubles the second backslash of the pair
again (the scanner does not treat an already-doubled backslash as
consumed), yielding three backslashes. -/
theorem c2_counterexample :
    clean_brand_name (clean_brand_name "\\") ≠ clean_brand_name "\\" := by
  decide

/-- Claim C2 (amended): the value canonicalizer `clean_brand_name` is
idempotent on every string containing no backslash; on strings with a
backslash, idempotence can fail (see `c2_counterexample`). -/
theorem c2_amended (s : String) (h : ∀ c ∈ s.data, c ≠ '\\') :
    clean_brand_name (clean_brand_name s) = clean_brand_name s := by
  have hnb : '\\' ∉ s.data := fun hm => (h _ hm) rfl
  have hm : clean_brand_name s = String.mk (pyStrip (collapseWs s.data)) := by
    unfold clean_brand_name
    rw [subInvalidEscapes_eq_self _ hnb]
  set m := pyStrip (collapseWs s.data) with hmdef
  have hmem : ∀ c ∈ m, c = ' ' ∨ c ∈ s.data := by
    intro c hc
    exact mem_collapseAux false _ (mem_pyStrip hc)
  have hnb2 : '\\' ∉ m := by
    intro hc
    rcases hmem _ hc with h1 | h1
    · exact absurd h1 (by decide)
    · exact hnb h1
  have hsp : ∀ c ∈ m, isPySpace c = true → c = ' ' := by
    intro c hc hp
    exact collapse_allSp false _ (mem_pyStrip hc) hp
  have hnts : noTwoSp m = true := by
    have h1 : noTwoSp (collapseWs s.data) = true := (collapse_norm s.data).2
    have h2 : noTwoSp (stripLeft (collapseWs s.data)) = true := noTwoSp_dropWhile _ h1
    exact noTwoSp_stripRight _ h2
  have hhead : headNotSp m = true := by
    have h1 : headNotSp (stripLeft (collapseWs s.data)) = true := headNotSp_dropWhile _
    exact headNotSp_stripRight _ h1
  have hlast : headNotSp m.reverse = true := headNotSp_reverse_stripRight _
  have hcoll : collapseWs m = m := (collapse_eq_self m hsp hnts).1
  have hstrip : pyStrip m = m := by
    unfold pyStrip
    rw [stripLeft_eq_self m hhead, stripRight_eq_self m hlast]
  rw [hm]
  unfold clean_brand_name
  show String.mk (pyStrip (collapseWs (subInvalidEscapes m))) = String.mk m
  rw [subInvalidEscapes_eq_self m hnb2, hcoll, hstrip]

/-- Witness for `c2_amended` at the concrete backslash-free input
`"a  b"`. -/
theorem c2_witness :
    clean_brand_name (clean_brand_name "a  b") = clean_brand_name "a  b" :=
  c2_amended "a  b" (by decide)

/-! Lemmas about the mapping-pair parser (claims C4, C1, C3). -/

theorem splitLines_ne_nil (l : List Char) : splitLines l ≠ [] := by
  cases l with
  | nil => simp [splitLines]
  | cons c rest =>
    by_cases hc : c = '\n'
    · simp [splitLines, hc]
    · rcases h : splitLines rest with _ | ⟨h0, t0⟩ <;> simp [splitLines, hc, h]

theorem parseLine_nil : parseLine [] = none := by decide

theorem pyStrip_cons_ws {c : Char} (l : List Char) (hc : isPySpace c = true) :
    pyStrip (c :: l) = pyStrip l := by
  unfold pyStrip stripLeft
  rw [List.dropWhile_cons_of_pos hc]

theorem stripRight_append_ws {c : Char} (l : List Char) (hc : isPySpace c = true) :
    stripRight (l ++ [c]) = stripRight l := by
  unfold stripRight
  rw [List.reverse_append]
  simp [List.dropWhile_cons, hc]

theorem pyStrip_append_ws {c : Char} (l : List Char) (hc : isPySpace c = true) :
    pyStrip (l ++ [c]) = pyStrip l := by
  unfold pyStrip
  by_cases he : (l.dropWhile isPySpace).isEmpty
  · have h1 : stripLeft l = [] := by
      simpa [stripLeft] using he
    have h2 : stripLeft (l ++ [c]) = [] := by
      unfold stripLeft
      rw [List.dropWhile_append]
      simp [he, List.dropWhile_cons, hc]
    rw [h1, h2]
  · have h2 : stripLeft (l ++ [c]) = stripLeft l ++ [c] := by
      unfold stripLeft
      rw [List.dropWhile_append]
      simp [he]
    rw [h2, stripRight_append_ws _ hc]

theorem parseLine_cons_ws {c : Char} (hc : isPySpace c = true) (h : List Char) :
    parseLine (c :: h) = parseLine h := by
  unfold parseLine
  rw [pyStrip_cons_ws _ hc]

theorem parseLine_append_ws {c : Char} (hc : isPySpace c = true) (h : List Char) :
    parseLine (h ++ [c]) = parseLine h := by
  unfold parseLine
  rw [pyStrip_append_ws _ hc]

theorem pairsOfL_cons_ws {c : Char} (hc : isPySpace c = true) (l : List Char) :
    pairsOfL (c :: l) = pairsOfL l := by
  by_cases hn : c = '\n'
  · unfold pairsOfL
    rw [show splitLines (c :: l) = [] :: splitLines l from by simp [splitLines, hn]]
    rw [List.filterMap_cons]
    simp [parseLine_nil]
  · unfold pairsOfL
    rcases hsl : splitLines l with _ | ⟨h0, t0⟩
    · exact absurd hsl (splitLines_ne_nil l)
    · rw [show splitLines (c :: l) = (c :: h0) :: t0 from by simp [splitLines, hn, hsl]]
      rw [List.filterMap_cons, List.filterMap_cons, parseLine_cons_ws hc]

theorem splitLines_append_nl (l : List Char) :
    splitLines (l ++ ['\n']) = splitLines l ++ [[]] := by
  induction l with
  | nil => simp [splitLines]
  | cons c rest ih =>
    by_cases hc : c = '\n'
    · simp [splitLines, hc, ih]
    · rcases hsl : splitLines rest with _ | ⟨h0, t0⟩
      · exact absurd hsl (splitLines_ne_nil rest)
      · rw [hsl] at ih
        simp [splitLines, hc, ih, hsl]

theorem appendToLast_cons_cons (c : Char) (a b : List Char) (t : List (List Char)) :
    appendToLast c (a :: b :: t) = a :: appendToLast c (b :: t) := rfl

theorem appendToLast_singleton (c : Char) (h : List Char) :
    appendToLast c [h] = [h ++ [c]] := rfl

theorem splitLines_append_char {c : Char} (hc : ¬ c = '\n') (l : List Char) :
    splitLines (l ++ [c]) = appendToLast c (splitLines l) := by
  induction l with
  | nil => simp [splitLines, appendToLast, hc]
  | cons d rest ih =>
    by_cases hd : d = '\n'
    · rcases hsl : splitLines rest with _ | ⟨h0, t0⟩
      · exact absurd hsl (splitLines_ne_nil rest)
      · rw [hsl] at ih
        simp [splitLines, hd, ih, hsl, appendToLast_cons_cons]
    · rcases hsl : splitLines rest with _ | ⟨h0, t0⟩
      · exact absurd hsl (splitLines_ne_nil rest)
      · rw [hsl] at ih
        cases t0 with
        | nil =>
          simp [splitLines, hd, ih, hsl, appendToLast_singleton]
        | cons x xs =>
          simp [splitLines, hd, ih, hsl, appendToLast_cons_cons]

theorem filterMap_appendToLast {c : Char} (hc : isPySpace c = true) :
    ∀ (L : List (List Char)), L ≠ [] →
    (appendToLast c L).filterMap parseLine = L.filterMap parseLine := by
  intro L
  induction L with
  | nil => intro h; exact absurd rfl h
  | cons h0 t0 ih =>
    intro _
    cases t0 with
    | nil =>
      simp [appendToLast_singleton, List.filterMap_cons, parseLine_append_ws hc]
    | cons x xs =>
      rw [appendToLast_cons_cons, List.filterMap_cons, List.filterMap_cons,
        ih (List.cons_ne_nil x xs)]

theorem pairsOfL_append_ws {c : Char} (hc : isPySpace c = true) (l : List Char) :
    pairsOfL (l ++ [c]) = pairsOfL l := by
  by_cases hn : c = '\n'
  · unfold pairsOfL
    rw [hn, splitLines_append_nl, List.filterMap_append]
    simp [parseLine_nil]
  · unfold pairsOfL
    rw [splitLines_append_char hn, filterMap_appendToLast hc _ (splitLines_ne_nil l)]

theorem pairsOfL_stripLeft (l : List Char) : pairsOfL (stripLeft l) = pairsOfL l := by
  induction l with
  | nil => rfl
  | cons c rest ih =>
    by_cases hc : isPySpace c
    · rw [show stripLeft (c :: rest) = stripLeft rest from by
        simp [stripLeft, List.dropWhile_cons, hc]]
      rw [ih, pairsOfL_cons_ws hc]
    · rw [stripLeft_eq_self _ (by simp [headNotSp, hc])]

theorem pairsOfL_stripRight (l : List Char) : pairsOfL (stripRight l) = pairsOfL l := by
  induction l using List.reverseRecOn with
  | nil => rfl
  | append_singleton l c ih =>
    by_cases hc : isPySpace c
    · rw [stripRight_append_ws _ hc, ih, pairsOfL_append_ws hc]
    · rw [stripRight_eq_self _ (by simp [List.reverse_append, headNotSp, hc])]

theorem pairsOfL_pyStrip (l : List Char) : pairsOfL (pyStrip l) = pairsOfL l := by
  unfold pyStrip
  rw [pairsOfL_stripRight, pairsOfL_stripLeft]

/-- Claim C4: the mapping parser splits the response into lines, splits each
line on the first `=` only with both sides trimmed, silently skips any line
lacking `=` or with an empty trimmed side, and returns the surviving pairs
in line order (the outer strip performed by the source does not change the
result); in particular the response `"A=B\nC=D\n"` parses to exactly
`[(A,B),(C,D)]`. -/
theorem c4_pair_extraction :
    (∀ s : String, extract_mappings s = parse_mapping_spec s) ∧
    extract_mappings "A=B\nC=D\n" = [("A", "B"), ("C", "D")] := by
  constructor
  · intro s
    unfold extract_mappings parse_mapping_spec
    rw [show (splitLines (pyStrip s.data)).filterMap parseLine =
          pairsOfL (pyStrip s.data) from rfl,
        show (splitLines s.data).filterMap parseLine = pairsOfL s.data from rfl,
        pairsOfL_pyStrip]
  · decide

/-! Theorems about `process_llm_response` and the two orchestration loops
(claims C1, C3, C7, C8, C9, C10). -/

theorem process_llm_response_of_pairs (jv : String → Bool)
    (output column_id : String) (h : extract_mappings output ≠ []) :
    process_llm_response jv output column_id = pyStripStr output := by
  have hd : (pyStripStr output).data = pyStrip output.data := rfl
  have hbase : (splitLines (pyStrip output.data)).filterMap parseLine ≠ [] := by
    intro he
    apply h
    unfold extract_mappings
    rw [he]
    rfl
  simp [process_llm_response, hd, hbase]

/-- Claim C1 (amended): the Mapping stored for a column is the parsed LLM
response itself — whenever at least one pair parses, the orchestrator stores
the trimmed response verbatim, so the original values of the stored Mapping
are exactly the left-hand sides parsed from the response.  No completeness
check against the column's Value Set is performed, and expected values
missing from the response are not inserted as self-mapped entries (see
`c1_counterexample`). -/
theorem c1_amended (jv : String → Bool) (output column_id : String)
    (h : extract_mappings output ≠ []) :
    process_llm_response jv output column_id = pyStripStr output ∧
    extract_mappings (process_llm_response jv output column_id)
      = extract_mappings output := by
  have h1 := process_llm_response_of_pairs jv output column_id h
  refine ⟨h1, ?_⟩
  rw [h1]
  unfold extract_mappings
  rw [show (pyStripStr output).data = pyStrip output.data from rfl]
  rw [show (splitLines (pyStrip (pyStrip output.data))).filterMap parseLine
        = pairsOfL (pyStrip (pyStrip output.data)) from rfl]
  rw [pairsOfL_pyStrip]
  rfl

/-- Witness for `c1_amended` at the concrete response `"A=A"`. -/
theorem c1_witness :
    process_llm_response (fun _ => false) "A=A" "col" = pyStripStr "A=A" ∧
    extract_mappings (process_llm_response (fun _ => false) "A=A" "col")
      = extract_mappings "A=A" :=
  c1_amended (fun _ => false) "A=A" "col" (by decide)

/-- Claim C1, counterexample: for a column whose Value Set is `{A, B}`, the
successful LLM response `"A=A"` is stored verbatim by the orchestrator; the
stored Mapping covers only the original value `A`, and the missing expected
value `B` is not inserted as a self-mapped entry, so the set of original
values of the Mapping does not equal the Value Set. -/
theorem c1_counterexample :
    generate_mappings_for_all_columns (fun _ => false)
      (some (fun _ => Except.ok "A=A")) [("col", "prompt")]
      = [("col", "A=A")] ∧
    (extract_mappings "A=A").map Prod.fst = ["A"] ∧
    ("B", "B") ∉ extract_mappings "A=A" := by
  refine ⟨?_, ?_, ?_⟩ <;> decide

/-- Claim C3 (amended): when zero pairs are extracted from a response and no
bracketed JSON-array substring is present, `process_llm_response` returns a
fixed error message naming only the column id, and the orchestrator stores
that error string as the column's mapping entry.  There is no
identity-mapping fallback, and the raw response text is not preserved in the
stored value (see `c3_counterexample`). -/
theorem c3_amended (jv : String → Bool) (output column_id prompt : String)
    (h1 : extract_mappings output = [])
    (h2 : ∀ m, bracketMatch (pyStrip output.data) = some m →
      jv (String.mk m) = false) :
    process_llm_response jv output column_id = could_not_parse_msg column_id ∧
    generate_mappings_for_all_columns jv (some (fun _ => Except.ok output))
      [(column_id, prompt)]
      = [(column_id, could_not_parse_msg column_id)] := by
  have hd : (pyStripStr output).data = pyStrip output.data := rfl
  have hbase : (splitLines (pyStrip output.data)).filterMap parseLine = [] := by
    have := h1
    unfold extract_mappings at this
    exact List.map_eq_nil_iff.mp this
  have hmain : process_llm_response jv output column_id
      = could_not_parse_msg column_id := by
    cases hbm : bracketMatch (pyStrip output.data) with
    | none => simp [process_llm_response, hd, hbase, hbm]
    | some m => simp [process_llm_response, hd, hbase, hbm, h2 m hbm]
  refine ⟨hmain, ?_⟩
  simp [generate_mappings_for_all_columns, call_llm_parallel, hmain]

/-- Witness for `c3_amended` at the concrete response
`"see [1,2,] above"`: zero pairs are extracted, a bracketed substring
`"[1,2,]"` is present but the JSON validator rejects it, and the fixed
error message is stored. -/
theorem c3_witness :
    process_llm_response (fun _ => false) "see [1,2,] above" "col"
      = could_not_parse_msg "col" ∧
    generate_mappings_for_all_columns (fun _ => false)
      (some (fun _ => Except.ok "see [1,2,] above")) [("col", "p")]
      = [("col", could_not_parse_msg "col")] :=
  c3_amended (fun _ => false) "see [1,2,] above" "col" "p" (by decide)
    (fun _ _ => rfl)

/-- Claim C3, counterexample: for the unparseable response
`"no pairs here"` (zero pairs, no JSON array) and a column whose Value Set
is `{A}`, the orchestrator stores the fixed could-not-parse error message —
not a one-to-one identity mapping (the stored value yields no `(A, A)`
entry) — and the stored value is identical to the one stored for a
completely different raw response, so the raw text is not preserved for
diagnostics in the stored result. -/
theorem c3_counterexample :
    generate_mappings_for_all_columns (fun _ => true)
      (some (fun _ => Except.ok "no pairs here")) [("col", "p")]
      = [("col", could_not_parse_msg "col")] ∧
    ("A", "A") ∉ extract_mappings (could_not_parse_msg "col") ∧
    process_llm_response (fun _ => true) "no pairs here" "col"
      = process_llm_response (fun _ => true) "a totally different response" "col" := by
  refine ⟨?_, ?_, ?_⟩ <;> decide

/-- Claim C7 (code bug, evaluation at the failing input): the mapping table
has `col ↦ "A=A"`, the feedback table has one entry for `col`, and the LLM
call fails.  `call_llm` swallows the exception and returns the string
`"Error calling LLM: boom"`, `process_llm_response` turns that into the
could-not-parse error message, and this error value REPLACES the column's
pre-refinement mapping `"A=A"` in the returned table.  The `except` branch
of `process_feedback_for_all_columns` (data_processor.py line 310, source
comment "Keep original if refinement fails") is unreachable because no
exception propagates, so the pre-refinement value is not preserved. -/
theorem c7_failing_eval :
    process_feedback_for_all_columns (fun _ => false)
      (some (fun _ => Except.error "boom"))
      [("col", "A=A")] [("col", [("A", "B")])]
      = [("col", could_not_parse_msg "col")] ∧
    [("col", could_not_parse_msg "col")] ≠ [("col", "A=A")] := by
  refine ⟨?_, ?_⟩ <;> decide

theorem generate_entry (jv : String → Bool)
    (oracle : String → Except String String)
    (tasks : List (String × String)) (i : Nat) (h : i < tasks.length) :
    (generate_mappings_for_all_columns jv (some oracle) tasks)[i]? =
      some (match oracle (tasks[i]).2 with
            | Except.error e => ((tasks[i]).1, "Error: " ++ e)
            | Except.ok output =>
              ((tasks[i]).1, process_llm_response jv output (tasks[i]).1)) := by
  simp only [generate_mappings_for_all_columns, List.getElem?_map,
    List.getElem?_eq_getElem h]
  cases hoa : oracle (tasks[i]).2 <;> simp [call_llm_parallel, hoa]

/-- Claim C8: in the mapping-generation collection loop, each task owns its
slot of the output map: the key list equals the task list's key list, the
entry of task `i` depends only on the LLM outcome for task `i`'s own prompt
(so a sibling failure cannot cancel or degrade it), and a failing task
populates its entry with exactly the explicit error marker. -/
theorem c8_isolation (jv : String → Bool)
    (oracle oracle2 : String → Except String String)
    (tasks : List (String × String)) (i : Nat) (h : i < tasks.length) :
    (generate_mappings_for_all_columns jv (some oracle) tasks).map Prod.fst
      = tasks.map Prod.fst ∧
    (oracle (tasks[i]).2 = oracle2 (tasks[i]).2 →
      (generate_mappings_for_all_columns jv (some oracle) tasks)[i]?
        = (generate_mappings_for_all_columns jv (some oracle2) tasks)[i]?) ∧
    (∀ e, oracle (tasks[i]).2 = Except.error e →
      (generate_mappings_for_all_columns jv (some oracle) tasks)[i]?
        = some ((tasks[i]).1, "Error: " ++ e)) := by
  refine ⟨?_, ?_, ?_⟩
  · simp only [generate_mappings_for_all_columns, List.map_map]
    apply List.map_congr_left
    intro a _
    cases hoa : oracle a.2 <;> simp [call_llm_parallel, hoa]
  · intro hag
    rw [generate_entry jv oracle tasks i h, generate_entry jv oracle2 tasks i h, hag]
  · intro e he
    rw [generate_entry jv oracle tasks i h, he]

/-- Witness for `c8_isolation`: three tasks, the second of which fails with
a transport error; its slot holds the error marker. -/
theorem c8_witness :
    (generate_mappings_for_all_columns (fun _ => false)
      (some (fun p => if p = "p2" then Except.error "boom" else Except.ok "A=A"))
      [("c1", "p1"), ("c2", "p2"), ("c3", "p3")])[1]?
      = some ("c2", "Error: " ++ "boom") :=
  (c8_isolation (fun _ => false)
    (fun p => if p = "p2" then Except.error "boom" else Except.ok "A=A")
    (fun p => if p = "p2" then Except.error "boom" else Except.ok "A=A")
    [("c1", "p1"), ("c2", "p2"), ("c3", "p3")] 1 (by decide)).2.2 "boom" rfl

/-- Claim C9: a column with zero feedback entries in the current round gets
an output Mapping byte-for-byte identical to its input Mapping, and the
equation holds for every LLM oracle — the entry does not depend on the LLM
at all, so no LLM call can influence it. -/
theorem c9_noop (jv : String → Bool)
    (llm : Option (String → Except String String))
    (mappings : List (String × String))
    (fb : List (String × List (String × String)))
    (i : Nat) (h : i < mappings.length)
    (hfb : (fb.lookup (mappings[i]).1).getD [] = []) :
    (process_feedback_for_all_columns jv llm mappings fb)[i]?
      = some mappings[i] := by
  simp only [process_feedback_for_all_columns, List.getElem?_map,
    List.getElem?_eq_getElem h]
  simp [hfb]

/-- Witness for `c9_noop`: one column, empty feedback table, an oracle that
always fails; the mapping passes through unchanged. -/
theorem c9_witness :
    (process_feedback_for_all_columns (fun _ => false)
      (some (fun _ => Except.error "down"))
      [("col", "A=A")] [])[0]? = some ("col", "A=A") :=
  c9_noop (fun _ => false) (some (fun _ => Except.error "down"))
    [("col", "A=A")] [] 0 (by decide) (by decide)

/-- Claim C10: the refinement step returns a table whose key list is exactly
the key list of the input mapping table, and the result depends on the
feedback table only through the entries at keys present in the mapping
table — feedback keyed by a column id not in the mapping table is ignored
entirely (it produces no output entry and has no influence, hence triggers
no LLM call). -/
theorem c10_keys (jv : String → Bool)
    (llm : Option (String → Except String String))
    (mappings : List (String × String))
    (fb fb2 : List (String × List (String × String))) :
    (process_feedback_for_all_columns jv llm mappings fb).map Prod.fst
      = mappings.map Prod.fst ∧
    ((∀ cid ∈ mappings.map Prod.fst,
        (fb.lookup cid).getD [] = (fb2.lookup cid).getD []) →
      process_feedback_for_all_columns jv llm mappings fb
        = process_feedback_for_all_columns jv llm mappings fb2) := by
  constructor
  · simp only [process_feedback_for_all_columns, List.map_map]
    apply List.map_congr_left
    intro a _
    by_cases hf : (fb.lookup a.1).getD ([] : List (String × String)) = [] <;> simp [hf]
  · intro hag
    unfold process_feedback_for_all_columns
    apply List.map_congr_left
    intro a ha
    have hcid := hag a.1 (List.mem_map_of_mem Prod.fst ha)
    dsimp only
    rw [hcid]

/-- Witness for `c10_keys`: feedback keyed only by an unknown column id
behaves exactly like an empty feedback table and leaves the key list
unchanged. -/
theorem c10_witness :
    (process_feedback_for_all_columns (fun _ => false)
        (some (fun _ => Except.error "down")) [("col", "A=A")]
        [("ghost", [("x", "y")])]).map Prod.fst
      = [("col", "A=A")].map Prod.fst ∧
    process_feedback_for_all_columns (fun _ => false)
        (some (fun _ => Except.error "down")) [("col", "A=A")]
        [("ghost", [("x", "y")])]
      = process_feedback_for_all_columns (fun _ => false)
        (some (fun _ => Except.error "down")) [("col", "A=A")] [] :=
  ⟨(c10_keys (fun _ => false) (some (fun _ => Except.error "down"))
      [("col", "A=A")] [("ghost", [("x", "y")])] []).1,
   (c10_keys (fun _ => false) (some (fun _ => Except.error "down"))
      [("col", "A=A")] [("ghost", [("x", "y")])] []).2 (by decide)⟩

/-! Lemmas about the clustering validator (claims C5, C6). -/

theorem mem_dedupKeepFirst {x : String} :
    ∀ (l : List String), x ∈ dedupKeepFirst l ↔ x ∈ l := by
  intro l
  induction l with
  | nil => simp [dedupKeepFirst]
  | cons c rest ih =>
    simp only [dedupKeepFirst, List.mem_cons]
    constructor
    · intro h
      rcases h with h | h
      · exact Or.inl h
      · exact Or.inr (ih.mp (List.mem_filter.mp h).1)
    · intro h
      rcases h with h | h
      · exact Or.inl h
      · by_cases hx : x = c
        · exact Or.inl hx
        · exact Or.inr (List.mem_filter.mpr ⟨ih.mpr h, by simp [hx]⟩)

theorem respColumns_not_any (gs : List (List String)) (c : String)
    (h : ∀ g ∈ gs, c ∉ g) :
    (respColumns (gs.map (fun g => JValue.arr (g.map JValue.str)))).any
      (JValue.eqStr c) = false := by
  induction gs with
  | nil => rfl
  | cons g rest ih =>
    have hg : c ∉ g := h g (List.mem_cons_self _ _)
    have hrest := ih (fun g' hg' => h g' (List.mem_cons_of_mem _ hg'))
    simp only [List.map_cons, respColumns, List.any_append, hrest, Bool.or_false]
    rw [List.any_eq_false]
    intro v hv
    rcases List.mem_map.mp hv with ⟨x, hx, rfl⟩
    simp only [JValue.eqStr]
    intro hbeq
    exact hg ((by simpa using hbeq : x = c) ▸ hx)

theorem respColumns_mem_str (gs : List (List String)) {g : List String}
    {x : String} (hg : g ∈ gs) (hx : x ∈ g) :
    JValue.str x ∈ respColumns (gs.map (fun g => JValue.arr (g.map JValue.str))) := by
  induction gs with
  | nil => exact absurd hg (List.not_mem_nil g)
  | cons g0 rest ih =>
    simp only [List.map_cons, respColumns, List.mem_append]
    rcases List.mem_cons.mp hg with h | h
    · exact Or.inl (List.mem_map_of_mem JValue.str (h ▸ hx))
    · exact Or.inr (ih h)

/-- Claim C5: for a well-formed nested-list clustering response, the
validator (a) appends every eligible column that is missing from all
response groups as its own singleton group, and (b) replaces the group at
each original position by that group with every non-eligible (hallucinated)
name removed and all other entries unchanged in order (when no hallucinated
name exists anywhere, the filter is the identity, so this also says the
groups pass through unchanged). -/
theorem c5_clustering_repair (gs : List (List String)) (actual : List String) :
    (∀ c, c ∈ actual → (∀ g ∈ gs, c ∉ g) →
      JValue.arr [JValue.str c]
        ∈ parse_llm_clustering_response (LoadResult.success (mkNestedList gs)) actual) ∧
    (∀ i, (h : i < gs.length) →
      (parse_llm_clustering_response (LoadResult.success (mkNestedList gs)) actual)[i]?
        = some (JValue.arr ((gs[i].filter (fun x => actual.contains x)).map JValue.str))) := by
  have hred : parse_llm_clustering_response (LoadResult.success (mkNestedList gs)) actual
      = validateClusters (gs.map (fun g => JValue.arr (g.map JValue.str))) actual := rfl
  constructor
  · intro c hc hng
    rw [hred]
    unfold validateClusters
    have hany := respColumns_not_any gs c hng
    have hmiss : c ∈ ((dedupKeepFirst actual).filter
        (fun c => ! (respColumns (gs.map (fun g => JValue.arr (g.map JValue.str)))).any
          (JValue.eqStr c))) :=
      List.mem_filter.mpr ⟨(mem_dedupKeepFirst actual).mpr hc, by simp [hany]⟩
    have hsing : JValue.arr [JValue.str c]
        ∈ gs.map (fun g => JValue.arr (g.map JValue.str))
          ++ ((dedupKeepFirst actual).filter
            (fun c => ! (respColumns (gs.map (fun g => JValue.arr (g.map JValue.str)))).any
              (JValue.eqStr c))).map (fun c => JValue.arr [JValue.str c]) :=
      List.mem_append.mpr (Or.inr (List.mem_map_of_mem _ hmiss))
    by_cases hE : ((respColumns (gs.map (fun g => JValue.arr (g.map JValue.str)))).filter
        (fun v => ! v.inNames actual)).isEmpty
    · simpa [hE] using hsing
    · simp only [hE, Bool.false_eq_true, if_false]
      refine List.mem_map.mpr ⟨JValue.arr [JValue.str c], hsing, ?_⟩
      have hcn : JValue.inNames actual (JValue.str c) = true := by
        simp [JValue.inNames, List.contains, hc]
      simp [hcn]
  · intro i h
    rw [hred]
    unfold validateClusters
    have hlen : i < (gs.map (fun g => JValue.arr (g.map JValue.str))).length := by
      simpa using h
    have hCi : (gs.map (fun g => JValue.arr (g.map JValue.str)))[i]?
        = some (JValue.arr (gs[i].map JValue.str)) := by
      simp [List.getElem?_eq_getElem h]
    by_cases hE : ((respColumns (gs.map (fun g => JValue.arr (g.map JValue.str)))).filter
        (fun v => ! v.inNames actual)).isEmpty
    · have hall : ∀ v ∈ respColumns (gs.map (fun g => JValue.arr (g.map JValue.str))),
          v.inNames actual = true := by
        intro v hv
        have := List.isEmpty_iff.mp hE
        have := List.filter_eq_nil_iff.mp this v hv
        simpa using this
      have hfid : gs[i].filter (fun x => actual.contains x) = gs[i] := by
        rw [List.filter_eq_self]
        intro x hx
        have hmem := respColumns_mem_str gs (List.getElem_mem h) hx
        have := hall _ hmem
        simpa [JValue.inNames] using this
      simp only [hE, if_true]
      rw [List.getElem?_append_left hlen, hCi, hfid]
    · simp only [hE, Bool.false_eq_true, if_false]
      rw [List.getElem?_map, List.getElem?_append_left hlen, hCi]
      simp only [Option.map_some']
      rw [List.filter_map]
      rfl

/-- Witness for `c5_clustering_repair`: three eligible columns, a response
covering only two of them; the third appears as its own singleton group. -/
theorem c5_witness :
    JValue.arr [JValue.str "c"]
      ∈ parse_llm_clustering_response
        (LoadResult.success (mkNestedList [["a", "b"]])) ["a", "b", "c"] :=
  (c5_clustering_repair [["a", "b"]] ["a", "b", "c"]).1 "c" (by decide) (by decide)

/-- Claim C6 (amended): a clustering response whose text fails JSON parsing
falls back to one singleton group per eligible column, but a response that
parses successfully to a non-list JSON value returns the EMPTY group list
(covering no eligible column), not singleton groups. -/
theorem c6_amended (column_names : List String) (v : JValue)
    (hv : v.isArr = false) :
    parse_llm_clustering_response LoadResult.failure column_names
      = column_names.map (fun c => JValue.arr [JValue.str c]) ∧
    parse_llm_clustering_response (LoadResult.success v) column_names = [] := by
  refine ⟨rfl, ?_⟩
  cases v with
  | arr items => exact absurd hv (by simp [JValue.isArr])
  | null => rfl
  | bool b => rfl
  | num n => rfl
  | str s => rfl
  | obj fields => rfl

/-- Witness for `c6_amended` at the non-list JSON value `99`. -/
theorem c6_witness :
    parse_llm_clustering_response LoadResult.failure ["b"]
      = ["b"].map (fun c => JValue.arr [JValue.str c]) ∧
    parse_llm_clustering_response (LoadResult.success (JValue.num 99)) ["b"] = [] :=
  c6_amended ["b"] (JValue.num 99) rfl

/-- Claim C6, counterexample: the response text `"42"` is valid JSON but not
a list; for one eligible column `"a"`, the engine returns the empty group
list — not the singleton partition `[["a"]]` — so the returned value does
not cover every eligible column. -/
theorem c6_counterexample :
    parse_llm_clustering_response (LoadResult.success (JValue.num 42)) ["a"] = [] ∧
    parse_llm_clustering_response (LoadResult.success (JValue.num 42)) ["a"]
      ≠ [JValue.arr [JValue.str "a"]] := by
  refine ⟨rfl, ?_⟩
  intro hcontra
  have hnil : ([] : List JValue) = [JValue.arr [JValue.str "a"]] := hcontra
  simp at hnil
